import Mathlib

/-!
Verification of the order-lifecycle, execution-simulation and position-ledger
logic of a simplified brokerage backend (a FastAPI trading SDK).

The embedding models the Python source shallowly:
- prices are rationals (`ℚ`); the Python call `round(x, 2)` becomes `round2`, which
  rounds half-to-even at the second decimal place as the Python builtin does;
- timestamps (`datetime.now()`) are abstract naturals, supplied as parameters;
- `random.uniform(-0.1, 0.1)` is modelled by an explicit parameter `eps`,
  the drawn value;
- the in-memory dictionaries (`instruments`, `orders`, `portfolio`, keyed by
  symbol/exchange or order id) are association lists with first-match lookup,
  in-place replacement and deletion, matching dict semantics for the unique
  keys maintained by the code;
- the stable Python sort `sorted(..., key=..., reverse=True)` is modelled by
  `List.insertionSort` with the reflexive "later-or-equal-first" relation,
  which is the unique stable non-increasing sort;
- raising an exception before any store mutation is modelled by returning the
  unchanged store together with an error value.
-/

namespace TradingAPI

/-- Side of an order (`models.OrderType`). -/
inductive OrderType where
  | BUY
  | SELL
deriving DecidableEq, Repr

/-- Style of an order (`models.OrderStyle`). -/
inductive OrderStyle where
  | MARKET
  | LIMIT
deriving DecidableEq, Repr

/-- Lifecycle status of an order (`models.OrderStatus`). -/
inductive OrderStatus where
  | NEW
  | PLACED
  | EXECUTED
  | CANCELLED
deriving DecidableEq, Repr

/-- Kind of instrument (`models.InstrumentType`). -/
inductive InstrumentType where
  | EQUITY
  | FUTURES
  | OPTIONS
deriving DecidableEq, Repr

/-- A tradable instrument (`models.Instrument`). -/
structure Instrument where
  symbol : String
  exchange : String
  instrumentType : InstrumentType
  lastTradedPrice : ℚ
deriving DecidableEq, Repr

/-- An order (`models.Order`). `price` is the optional limit price;
`executedAt`/`executedPrice` are `none` until execution. -/
structure Order where
  orderId : String
  symbol : String
  exchange : String
  orderType : OrderType
  orderStyle : OrderStyle
  quantity : ℤ
  price : Option ℚ
  status : OrderStatus
  createdAt : ℕ
  executedAt : Option ℕ
  executedPrice : Option ℚ
deriving DecidableEq, Repr

/-- An executed trade (`models.Trade`). -/
structure Trade where
  tradeId : String
  orderId : String
  symbol : String
  exchange : String
  orderType : OrderType
  quantity : ℤ
  price : ℚ
  executedAt : ℕ
deriving DecidableEq, Repr

/-- A portfolio position (`models.PortfolioHolding`). -/
structure PortfolioHolding where
  symbol : String
  exchange : String
  quantity : ℤ
  averagePrice : ℚ
  currentValue : ℚ
deriving DecidableEq, Repr

/-- An order-submission request (`models.CreateOrderRequest`). -/
structure CreateOrderRequest where
  symbol : String
  exchange : String
  orderType : OrderType
  orderStyle : OrderStyle
  quantity : ℤ
  price : Option ℚ
deriving DecidableEq, Repr

/-- Domain errors raised by `create_order` (`exceptions.py`). -/
inductive TradingError where
  | instrumentNotFound (symbol exchange : String)
  | insufficientHolding (symbol : String) (available requested : ℤ)
deriving DecidableEq, Repr

/-- Round a rational to the nearest integer, ties to the even integer:
the semantics of the Python builtin `round` on exact values. -/
def roundHalfEven (q : ℚ) : ℤ :=
  let f := ⌊q⌋
  if q - f < 1 / 2 then f
  else if 1 / 2 < q - f then f + 1
  else if f % 2 = 0 then f else f + 1

/-- Rounding to two decimal places with ties to even, the Python call `round(q, 2)`. -/
def round2 (q : ℚ) : ℚ :=
  (roundHalfEven (q * 100) : ℚ) / 100

/-- Dictionary lookup in the instrument catalog keyed by
`f"{symbol}_{exchange}"` (`TradingDatabase.get_instrument`). -/
def get_instrument (instruments : List Instrument) (symbol exchange : String) :
    Option Instrument :=
  instruments.find? fun i => i.symbol == symbol && i.exchange == exchange

/-- Dictionary lookup in the portfolio ledger
(`TradingDatabase.get_portfolio_holding`). -/
def get_portfolio_holding (portfolio : List PortfolioHolding)
    (symbol exchange : String) : Option PortfolioHolding :=
  portfolio.find? fun h => h.symbol == symbol && h.exchange == exchange

/-- The fresh holding created by `TradingDatabase.update_portfolio` when no
position exists for the key: average price is the fill price, current value
uses the catalog price when the instrument is known. -/
def newHolding (instruments : List Instrument) (symbol exchange : String)
    (quantity : ℤ) (price : ℚ) : PortfolioHolding :=
  let current_price :=
    match get_instrument instruments symbol exchange with
    | some i => i.lastTradedPrice
    | none => price
  { symbol := symbol, exchange := exchange, quantity := quantity,
    averagePrice := price, currentValue := (quantity : ℚ) * current_price }

/-- The existing-holding branch of `TradingDatabase.update_portfolio`:
`none` means the entry is deleted (total quantity exactly zero); otherwise the
blended average is `total_cost / total_quantity` when the total is positive and
`0` otherwise, exactly as the conditional expression in the source. -/
def blendHolding (instruments : List Instrument) (symbol exchange : String)
    (quantity : ℤ) (price : ℚ) (holding : PortfolioHolding) :
    Option PortfolioHolding :=
  let total_quantity := holding.quantity + quantity
  if total_quantity = 0 then none
  else
    let total_cost := (holding.quantity : ℚ) * holding.averagePrice +
      (quantity : ℚ) * price
    let new_avg_price :=
      if 0 < total_quantity then total_cost / (total_quantity : ℚ) else 0
    let current_price :=
      match get_instrument instruments symbol exchange with
      | some i => i.lastTradedPrice
      | none => price
    some { symbol := symbol, exchange := exchange, quantity := total_quantity,
           averagePrice := new_avg_price,
           currentValue := (total_quantity : ℚ) * current_price }

/-- Embedding of `TradingDatabase.update_portfolio`: apply a signed fill to the ledger.
The first entry matching the key is updated in place (or deleted when the new
total is zero); when no entry matches, a holding is created only for a
strictly positive quantity. -/
def update_portfolio (instruments : List Instrument) (symbol exchange : String)
    (quantity : ℤ) (price : ℚ) :
    List PortfolioHolding → List PortfolioHolding
  | [] =>
    if 0 < quantity then [newHolding instruments symbol exchange quantity price]
    else []
  | h :: rest =>
    if h.symbol == symbol && h.exchange == exchange then
      match blendHolding instruments symbol exchange quantity price h with
      | none => rest
      | some h' => h' :: rest
    else h :: update_portfolio instruments symbol exchange quantity price rest

/-- Refresh the market value of one holding from the catalog, as the read path
does (`TradingDatabase.get_all_portfolio_holdings` loop body). -/
def refreshHolding (instruments : List Instrument) (h : PortfolioHolding) :
    PortfolioHolding :=
  match get_instrument instruments h.symbol h.exchange with
  | some i => { h with currentValue := (h.quantity : ℚ) * i.lastTradedPrice }
  | none => h

/-- Embedding of `TradingDatabase.get_all_portfolio_holdings`: recompute every current
value from the catalog and return the listing (which is also the new state of
the ledger, since the source mutates the stored holdings in place). -/
def get_all_portfolio_holdings (instruments : List Instrument)
    (portfolio : List PortfolioHolding) : List PortfolioHolding :=
  portfolio.map (refreshHolding instruments)

/-- Ordering used by the trade listing: trade `a` comes no later than trade
`b` in the output when `a` executed at the same time or after `b`. -/
def laterFirst (a b : Trade) : Prop :=
  b.executedAt ≤ a.executedAt

instance : DecidableRel laterFirst := fun a b =>
  inferInstanceAs (Decidable (b.executedAt ≤ a.executedAt))

instance : IsTotal Trade laterFirst :=
  ⟨fun a b => Nat.le_total b.executedAt a.executedAt⟩

instance : IsTrans Trade laterFirst :=
  ⟨fun _ _ _ hab hbc => le_trans hbc hab⟩

/-- Embedding of `TradingDatabase.get_all_trades`: the stable Python sort
`sorted(trades, key=executedAt, reverse=True)`, i.e. the stable
non-increasing sort by execution timestamp. -/
def get_all_trades (trades : List Trade) : List Trade :=
  List.insertionSort laterFirst trades

/-- Dictionary assignment into the order store keyed by order id
(`TradingDatabase.create_order` / `TradingDatabase.update_order`). -/
def set_order : List Order → Order → List Order
  | [], o => [o]
  | h :: rest, o =>
    if h.orderId == o.orderId then o :: rest else h :: set_order rest o

/-- Lookup in the order store (`TradingDatabase.get_order`). -/
def get_order (orders : List Order) (order_id : String) : Option Order :=
  orders.find? fun o => o.orderId == order_id

/-- The whole in-memory database (`TradingDatabase`). The catalog is
read-only in every operation modelled here. -/
structure DB where
  instruments : List Instrument
  orders : List Order
  trades : List Trade
  portfolio : List PortfolioHolding
deriving DecidableEq, Repr

/-- Embedding of `main.simulate_order_execution`. `eps` is the value drawn by
`random.uniform(-0.1, 0.1)` and `now` the execution timestamp. A MARKET
order always executes at `round2(lastTradedPrice * (1 + eps))`. A LIMIT order
executes when its (truthy) limit price is on the favorable side of the
reference price; otherwise only the status is set to PLACED. -/
def simulate_order_execution (eps : ℚ) (now : ℕ) (order : Order)
    (instrument : Instrument) : Order :=
  match order.orderStyle with
  | OrderStyle.MARKET =>
    let executed_price := round2 (instrument.lastTradedPrice * (1 + eps))
    { order with status := OrderStatus.EXECUTED, executedAt := some now,
                 executedPrice := some executed_price }
  | OrderStyle.LIMIT =>
    match order.orderType with
    | OrderType.BUY =>
      match order.price with
      | some p =>
        if p ≠ 0 ∧ instrument.lastTradedPrice ≤ p then
          let executed_price :=
            round2 (min p (instrument.lastTradedPrice * 1.001))
          { order with status := OrderStatus.EXECUTED, executedAt := some now,
                       executedPrice := some executed_price }
        else { order with status := OrderStatus.PLACED }
      | none => { order with status := OrderStatus.PLACED }
    | OrderType.SELL =>
      match order.price with
      | some p =>
        if p ≠ 0 ∧ p ≤ instrument.lastTradedPrice then
          let executed_price :=
            round2 (max p (instrument.lastTradedPrice * 0.999))
          { order with status := OrderStatus.EXECUTED, executedAt := some now,
                       executedPrice := some executed_price }
        else { order with status := OrderStatus.PLACED }
      | none => { order with status := OrderStatus.PLACED }

/-- Quantity available for sale, as computed in `main.create_order`:
the held quantity for the key, zero when no holding exists. -/
def available_quantity (portfolio : List PortfolioHolding)
    (symbol exchange : String) : ℤ :=
  match get_portfolio_holding portfolio symbol exchange with
  | some h => h.quantity
  | none => 0

/-- Embedding of `main.create_order`: the full submission flow after request validation.
`order_id`/`trade_id` stand for the generated identifiers, `now` for
`datetime.now()`, `eps` for the random draw. Errors raised before any store
mutation return the unchanged database. -/
-- The freshly created order in state NEW, as built in main.create_order.
def initial_order (order_id : String) (now : ℕ)
    (req : CreateOrderRequest) : Order :=
  { orderId := order_id, symbol := req.symbol, exchange := req.exchange,
    orderType := req.orderType, orderStyle := req.orderStyle,
    quantity := req.quantity, price := req.price,
    status := OrderStatus.NEW, createdAt := now,
    executedAt := none, executedPrice := none }

/-- The same order after the synchronous NEW to PLACED transition. -/
def placed_order (order_id : String) (now : ℕ)
    (req : CreateOrderRequest) : Order :=
  { initial_order order_id now req with status := OrderStatus.PLACED }

def create_order (eps : ℚ) (order_id trade_id : String) (now : ℕ)
    (req : CreateOrderRequest) (db : DB) : DB × Except TradingError Order :=
  match get_instrument db.instruments req.symbol req.exchange with
  | none =>
    (db, Except.error (TradingError.instrumentNotFound req.symbol req.exchange))
  | some instrument =>
    if req.orderType = OrderType.SELL ∧
        available_quantity db.portfolio req.symbol req.exchange < req.quantity
    then
      (db, Except.error (TradingError.insufficientHolding req.symbol
        (available_quantity db.portfolio req.symbol req.exchange) req.quantity))
    else
      let order0 := initial_order order_id now req
      let db1 := { db with orders := set_order db.orders order0 }
      let order1 := placed_order order_id now req
      let db2 := { db1 with orders := set_order db1.orders order1 }
      let order2 := simulate_order_execution eps now order1 instrument
      let db3 := { db2 with orders := set_order db2.orders order2 }
      match order2.executedPrice with
      | some ep =>
        if order2.status = OrderStatus.EXECUTED ∧ ep ≠ 0 then
          let trade : Trade :=
            { tradeId := trade_id, orderId := order2.orderId,
              symbol := order2.symbol, exchange := order2.exchange,
              orderType := order2.orderType, quantity := order2.quantity,
              price := ep, executedAt := order2.executedAt.getD now }
          let db4 := { db3 with trades := db3.trades ++ [trade] }
          let pq := if order2.orderType = OrderType.BUY then order2.quantity
            else -order2.quantity
          let pf' := update_portfolio db4.instruments order2.symbol
            order2.exchange pq ep db4.portfolio
          let db5 := { db4 with portfolio := pf' }
          (db5, Except.ok order2)
        else (db3, Except.ok order2)
      | none => (db3, Except.ok order2)

/-- The catalog loaded by `TradingDatabase._initialize_sample_data`. -/
def sample_instruments : List Instrument :=
  [ { symbol := "RELIANCE", exchange := "NSE",
      instrumentType := InstrumentType.EQUITY, lastTradedPrice := 2450.50 },
    { symbol := "TCS", exchange := "NSE",
      instrumentType := InstrumentType.EQUITY, lastTradedPrice := 3450.75 },
    { symbol := "INFY", exchange := "NSE",
      instrumentType := InstrumentType.EQUITY, lastTradedPrice := 1450.25 },
    { symbol := "HDFCBANK", exchange := "NSE",
      instrumentType := InstrumentType.EQUITY, lastTradedPrice := 1650.00 },
    { symbol := "ICICIBANK", exchange := "NSE",
      instrumentType := InstrumentType.EQUITY, lastTradedPrice := 950.50 },
    { symbol := "BHARTIARTL", exchange := "NSE",
      instrumentType := InstrumentType.EQUITY, lastTradedPrice := 1050.00 },
    { symbol := "SBIN", exchange := "NSE",
      instrumentType := InstrumentType.EQUITY, lastTradedPrice := 550.25 },
    { symbol := "WIPRO", exchange := "NSE",
      instrumentType := InstrumentType.EQUITY, lastTradedPrice := 450.75 } ]

/-- The freshly initialized database (`database.db` at startup). -/
def initialDB : DB :=
  { instruments := sample_instruments, orders := [], trades := [],
    portfolio := [] }

/-- A PLACED market buy order for RELIANCE, as built by `create_order` just
before the execution simulation. -/
def relianceMarketOrder : Order :=
  { orderId := "ORD00000001", symbol := "RELIANCE", exchange := "NSE",
    orderType := OrderType.BUY, orderStyle := OrderStyle.MARKET,
    quantity := 10, price := none, status := OrderStatus.PLACED,
    createdAt := 5, executedAt := none, executedPrice := none }

/-- The RELIANCE catalog entry. -/
def relianceInstrument : Instrument :=
  { symbol := "RELIANCE", exchange := "NSE",
    instrumentType := InstrumentType.EQUITY, lastTradedPrice := 2450.50 }

/-- A PLACED limit buy order for TCS at limit 3500. -/
def tcsLimitOrder : Order :=
  { orderId := "ORD00000002", symbol := "TCS", exchange := "NSE",
    orderType := OrderType.BUY, orderStyle := OrderStyle.LIMIT,
    quantity := 5, price := some 3500, status := OrderStatus.PLACED,
    createdAt := 7, executedAt := none, executedPrice := none }

/-- The TCS catalog entry. -/
def tcsInstrument : Instrument :=
  { symbol := "TCS", exchange := "NSE",
    instrumentType := InstrumentType.EQUITY, lastTradedPrice := 3450.75 }

def fooSellRequest : CreateOrderRequest :=
  { symbol := "FOO", exchange := "NSE", orderType := OrderType.SELL,
    orderStyle := OrderStyle.MARKET, quantity := 5, price := none }

def relianceSellRequest : CreateOrderRequest :=
  { symbol := "RELIANCE", exchange := "NSE", orderType := OrderType.SELL,
    orderStyle := OrderStyle.MARKET, quantity := 1000, price := none }

/-- Keys `(symbol, exchange)` are pairwise distinct: the representation
invariant of the Python dict underlying the Portfolio Ledger. -/
def NoDupKeys (pf : List PortfolioHolding) : Prop :=
  pf.Pairwise fun a b => ¬(a.symbol = b.symbol ∧ a.exchange = b.exchange)

/-- The MARKET BUY request of the spec scenario. -/
def marketBuyRequest : CreateOrderRequest :=
  { symbol := "RELIANCE", exchange := "NSE", orderType := OrderType.BUY,
    orderStyle := OrderStyle.MARKET, quantity := 10, price := none }

/-- The order that the scenario produces with a zero random draw. -/
def c8order : Order :=
  { orderId := "ORD00000005", symbol := "RELIANCE", exchange := "NSE",
    orderType := OrderType.BUY, orderStyle := OrderStyle.MARKET,
    quantity := 10, price := none, status := OrderStatus.EXECUTED,
    createdAt := 5, executedAt := some 5, executedPrice := some 2450.5 }

/-- The trade recorded by the scenario run. -/
def c8trade : Trade :=
  { tradeId := "TRD00000003", orderId := "ORD00000005", symbol := "RELIANCE",
    exchange := "NSE", orderType := OrderType.BUY, quantity := 10,
    price := 2450.5, executedAt := 5 }

/-- The database state after the scenario run. -/
def c8db : DB :=
  { instruments := sample_instruments,
    orders := [c8order],
    trades := [c8trade],
    portfolio := [newHolding sample_instruments "RELIANCE" "NSE" 10 2450.5] }

/-- A stored RELIANCE position with a stale market value. -/
def c9pf : List PortfolioHolding :=
  [{ symbol := "RELIANCE", exchange := "NSE", quantity := 10,
     averagePrice := 100, currentValue := 0 }]

/-- The same position as listed by the read path: market value refreshed. -/
def c9holding : PortfolioHolding :=
  { symbol := "RELIANCE", exchange := "NSE", quantity := 10,
    averagePrice := 100, currentValue := 24505 }

/-- C1: the claim states that a MARKET order executes at the reference price
perturbed by a bounded random factor of at most plus or minus 0.1 percent,
hence within 0.2 percent of the reference price. The code instead computes
`lastTradedPrice * (1 + u)` with `u` drawn uniformly from `[-0.1, 0.1]`, a
perturbation of up to 10 percent, contradicting the inline source comment
that announces a 0.1 percent variation. At the admissible maximal draw
`u = 1/10`, the RELIANCE market order executes at 2695.55, far outside the
claimed band around the reference price 2450.50: the claim is right and the
code is wrong. -/
theorem C1_market_order_price_band_code_bug :
    |(1 / 10 : ℚ)| ≤ 1 / 10 ∧
    (simulate_order_execution (1 / 10) 5 relianceMarketOrder
      relianceInstrument).status = OrderStatus.EXECUTED ∧
    (simulate_order_execution (1 / 10) 5 relianceMarketOrder
      relianceInstrument).executedPrice = some 2695.55 ∧
    ¬ |(2695.55 : ℚ) - relianceInstrument.lastTradedPrice| ≤
        2 / 1000 * relianceInstrument.lastTradedPrice := by
  refine ⟨by rw [abs_le]; norm_num, ?_, ?_, ?_⟩
  · simp [simulate_order_execution, relianceMarketOrder]
  · simp [simulate_order_execution, relianceMarketOrder, relianceInstrument]
    norm_num [round2, roundHalfEven]
  · norm_num [relianceInstrument, abs_le]

/-- C2: a LIMIT BUY with a positive limit price executes exactly when the
limit price is at least the reference price, at `min(limit, reference *
1.001)` rounded to two decimals; a LIMIT SELL executes exactly when the limit
price is at most the reference price, at `max(limit, reference * 0.999)`
rounded to two decimals; in every other case the order ends in status PLACED
with no execution price and no execution timestamp set. -/
theorem C2_limit_order_execution (eps : ℚ) (now : ℕ) (o : Order) (i : Instrument)
    (hstyle : o.orderStyle = OrderStyle.LIMIT) (p : ℚ) (hp : o.price = some p)
    (hpos : 0 < p) (hA : o.executedAt = none) (hE : o.executedPrice = none) :
    (o.orderType = OrderType.BUY →
      (i.lastTradedPrice ≤ p →
        (simulate_order_execution eps now o i).status = OrderStatus.EXECUTED ∧
        (simulate_order_execution eps now o i).executedPrice =
          some (round2 (min p (i.lastTradedPrice * 1.001))) ∧
        (simulate_order_execution eps now o i).executedAt = some now) ∧
      (¬ i.lastTradedPrice ≤ p →
        (simulate_order_execution eps now o i).status = OrderStatus.PLACED ∧
        (simulate_order_execution eps now o i).executedPrice = none ∧
        (simulate_order_execution eps now o i).executedAt = none)) ∧
    (o.orderType = OrderType.SELL →
      (p ≤ i.lastTradedPrice →
        (simulate_order_execution eps now o i).status = OrderStatus.EXECUTED ∧
        (simulate_order_execution eps now o i).executedPrice =
          some (round2 (max p (i.lastTradedPrice * 0.999))) ∧
        (simulate_order_execution eps now o i).executedAt = some now) ∧
      (¬ p ≤ i.lastTradedPrice →
        (simulate_order_execution eps now o i).status = OrderStatus.PLACED ∧
        (simulate_order_execution eps now o i).executedPrice = none ∧
        (simulate_order_execution eps now o i).executedAt = none)) := by
  have hne : p ≠ 0 := ne_of_gt hpos
  constructor
  · intro hbuy
    constructor
    · intro hfav
      simp [simulate_order_execution, hstyle, hbuy, hp, hne, hfav]
    · intro hfav
      simp [simulate_order_execution, hstyle, hbuy, hp, hne, hfav, hA, hE]
  · intro hsell
    constructor
    · intro hfav
      simp [simulate_order_execution, hstyle, hsell, hp, hne, hfav]
    · intro hfav
      simp [simulate_order_execution, hstyle, hsell, hp, hne, hfav, hA, hE]

/-- C2 witness: the spec scenario LIMIT BUY TCS at limit 3500 against
reference price 3450.75 executes at 3454.20. -/
theorem C2_limit_order_execution_witness :
    (simulate_order_execution 0 7 tcsLimitOrder tcsInstrument).status =
      OrderStatus.EXECUTED ∧
    (simulate_order_execution 0 7 tcsLimitOrder tcsInstrument).executedPrice =
      some 3454.2 := by
  have h := C2_limit_order_execution 0 7 tcsLimitOrder tcsInstrument rfl 3500 rfl (by norm_num)
    rfl rfl
  have h2 := (h.1 rfl).1 (by norm_num [tcsInstrument])
  refine ⟨h2.1, ?_⟩
  rw [h2.2.1]
  norm_num [tcsInstrument, round2, roundHalfEven, min_def]

/-- C3 counterexample: a SELL submission naming an instrument absent from
the catalog, with requested quantity 5 exceeding the zero holdings, fails
with InstrumentNotFound and not with the InsufficientHoldings error the claim
promises for every such submission. -/
theorem C3_insufficient_holdings_cex :
    available_quantity initialDB.portfolio "FOO" "NSE" < fooSellRequest.quantity ∧
    create_order 0 "ORD00000003" "TRD00000001" 3 fooSellRequest initialDB =
      (initialDB, Except.error (TradingError.instrumentNotFound "FOO" "NSE")) ∧
    (TradingError.instrumentNotFound "FOO" "NSE" ≠
      TradingError.insufficientHolding "FOO" 0 5) := by
  refine ⟨?_, ?_, by simp⟩
  · simp [available_quantity, get_portfolio_holding, initialDB,
      fooSellRequest]
  · simp [create_order, get_instrument, initialDB, sample_instruments,
      fooSellRequest]

/-- C3 (amended): for every SELL order submission against an instrument
present in the catalog whose requested quantity exceeds the held quantity
(zero when no holding exists), the submission fails with an
InsufficientHoldings error reporting the available and requested quantities,
and the database, hence the Order Store, Trade Ledger and Portfolio Ledger,
is left exactly unchanged, so no order is created. -/
theorem C3_insufficient_holdings_amended (eps : ℚ) (oid tid : String) (now : ℕ)
    (req : CreateOrderRequest) (db : DB) (i : Instrument)
    (hi : get_instrument db.instruments req.symbol req.exchange = some i)
    (hsell : req.orderType = OrderType.SELL)
    (hlt : available_quantity db.portfolio req.symbol req.exchange <
      req.quantity) :
    create_order eps oid tid now req db =
      (db, Except.error (TradingError.insufficientHolding req.symbol
        (available_quantity db.portfolio req.symbol req.exchange)
        req.quantity)) := by
  unfold create_order
  simp only [hi]
  rw [if_pos ⟨hsell, hlt⟩]

/-- C3 witness: the spec scenario of selling 1000 RELIANCE against the
fresh database fails with available 0 and requested 1000, leaving the
database unchanged. -/
theorem C3_insufficient_holdings_witness :
    create_order 0 "ORD00000004" "TRD00000002" 3 relianceSellRequest initialDB =
      (initialDB, Except.error
        (TradingError.insufficientHolding "RELIANCE" 0 1000)) := by
  have h := C3_insufficient_holdings_amended 0 "ORD00000004" "TRD00000002" 3 relianceSellRequest
    initialDB relianceInstrument
    (by simp [get_instrument, initialDB, sample_instruments,
      relianceSellRequest, relianceInstrument])
    rfl
    (by simp [available_quantity, get_portfolio_holding, initialDB,
      relianceSellRequest])
  simpa [available_quantity, get_portfolio_holding, initialDB,
    relianceSellRequest] using h

theorem blendHolding_eq_some {instruments : List Instrument}
    {s e : String} {q : ℤ} {price : ℚ} {h h' : PortfolioHolding}
    (hb : blendHolding instruments s e q price h = some h') :
    h.quantity + q ≠ 0 ∧ h'.symbol = s ∧ h'.exchange = e ∧
    h'.quantity = h.quantity + q ∧
    h'.averagePrice = (if 0 < h.quantity + q then
      ((h.quantity : ℚ) * h.averagePrice + (q : ℚ) * price) /
        ((h.quantity + q : ℤ) : ℚ) else 0) := by
  simp only [blendHolding] at hb
  split at hb
  · exact absurd hb (by simp)
  · rename_i hne
    refine ⟨hne, ?_, ?_, ?_, ?_⟩ <;> rw [← Option.some_inj.mp hb]

theorem blendHolding_eq_none {instruments : List Instrument}
    {s e : String} {q : ℤ} {price : ℚ} {h : PortfolioHolding} :
    blendHolding instruments s e q price h = none ↔ h.quantity + q = 0 := by
  simp only [blendHolding]
  split <;> simp_all

theorem get_portfolio_holding_update_found {instruments : List Instrument}
    {s e : String} {q : ℤ} {price : ℚ} :
    ∀ {pf : List PortfolioHolding} {h h' : PortfolioHolding},
      get_portfolio_holding pf s e = some h →
      blendHolding instruments s e q price h = some h' →
      get_portfolio_holding (update_portfolio instruments s e q price pf) s e =
        some h' := by
  intro pf
  induction pf with
  | nil => intro h h' hfind _; simp [get_portfolio_holding] at hfind
  | cons hd rest ih =>
    intro h h' hfind hb
    by_cases hm : (hd.symbol == s && hd.exchange == e) = true
    · simp only [get_portfolio_holding, List.find?, hm] at hfind
      obtain rfl : hd = h := Option.some_inj.mp hfind
      simp only [update_portfolio, hm, if_true, hb]
      obtain ⟨-, hs, he, -, -⟩ := blendHolding_eq_some hb
      simp [get_portfolio_holding, List.find?, hs, he]
    · rw [Bool.not_eq_true] at hm
      simp only [get_portfolio_holding, List.find?, hm] at hfind
      simp only [update_portfolio, hm, Bool.false_eq_true, if_false]
      simp only [get_portfolio_holding, List.find?, hm]
      exact ih hfind hb

theorem get_portfolio_holding_update_deleted {instruments : List Instrument}
    {s e : String} {q : ℤ} {price : ℚ} :
    ∀ {pf : List PortfolioHolding} {h : PortfolioHolding}, NoDupKeys pf →
      get_portfolio_holding pf s e = some h →
      blendHolding instruments s e q price h = none →
      get_portfolio_holding (update_portfolio instruments s e q price pf) s e =
        none := by
  intro pf
  induction pf with
  | nil => intro h _ hfind _; simp [get_portfolio_holding] at hfind
  | cons hd rest ih =>
    intro h hnd hfind hb
    by_cases hm : (hd.symbol == s && hd.exchange == e) = true
    · simp only [get_portfolio_holding, List.find?, hm] at hfind
      obtain rfl : hd = h := Option.some_inj.mp hfind
      simp only [update_portfolio, hm, if_true, hb]
      rw [get_portfolio_holding, List.find?_eq_none]
      intro b hbmem hbkey
      simp only [Bool.and_eq_true, beq_iff_eq] at hm hbkey
      exact (List.pairwise_cons.mp hnd).1 b hbmem
        ⟨hm.1.trans hbkey.1.symm, hm.2.trans hbkey.2.symm⟩
    · rw [Bool.not_eq_true] at hm
      simp only [get_portfolio_holding, List.find?, hm] at hfind
      simp only [update_portfolio, hm, Bool.false_eq_true, if_false]
      simp only [get_portfolio_holding, List.find?, hm]
      exact ih (List.pairwise_cons.mp hnd).2 hfind hb

theorem update_portfolio_not_found {instruments : List Instrument}
    {s e : String} {q : ℤ} {price : ℚ} :
    ∀ {pf : List PortfolioHolding},
      get_portfolio_holding pf s e = none →
      update_portfolio instruments s e q price pf =
        if 0 < q then pf ++ [newHolding instruments s e q price] else pf := by
  intro pf
  induction pf with
  | nil => intro _; rw [update_portfolio]; split <;> rfl
  | cons hd rest ih =>
    intro hfind
    rw [get_portfolio_holding, List.find?_cons] at hfind
    by_cases hm : (hd.symbol == s && hd.exchange == e) = true
    · rw [hm] at hfind; exact absurd hfind (by simp)
    · rw [Bool.not_eq_true] at hm
      rw [hm] at hfind
      simp only [update_portfolio, hm, Bool.false_eq_true, if_false]
      rw [ih hfind]
      split <;> simp

theorem update_portfolio_nonzero {instruments : List Instrument}
    {s e : String} {q : ℤ} {price : ℚ} :
    ∀ {pf : List PortfolioHolding},
      (∀ x ∈ pf, x.quantity ≠ 0) →
      ∀ x ∈ update_portfolio instruments s e q price pf, x.quantity ≠ 0 := by
  intro pf
  induction pf with
  | nil =>
    intro _ x hx
    rw [update_portfolio] at hx
    split at hx
    · rename_i hq
      simp only [List.mem_singleton] at hx
      subst hx
      simp only [newHolding]
      exact ne_of_gt hq
    · simp at hx
  | cons hd rest ih =>
    intro hall x hx
    by_cases hm : (hd.symbol == s && hd.exchange == e) = true
    · simp only [update_portfolio, hm, if_true] at hx
      cases hb : blendHolding instruments s e q price hd with
      | none =>
        rw [hb] at hx
        exact hall x (List.mem_cons_of_mem _ hx)
      | some h' =>
        rw [hb] at hx
        rcases List.mem_cons.mp hx with rfl | hx'
        · obtain ⟨hne, -, -, hqty, -⟩ := blendHolding_eq_some hb
          rw [hqty]; exact hne
        · exact hall x (List.mem_cons_of_mem _ hx')
    · rw [Bool.not_eq_true] at hm
      simp only [update_portfolio, hm, Bool.false_eq_true, if_false] at hx
      rcases List.mem_cons.mp hx with rfl | hx'
      · exact hall x (List.mem_cons_self _ _)
      · exact ih (fun y hy => hall y (List.mem_cons_of_mem _ hy)) x hx'

theorem update_portfolio_pos {instruments : List Instrument}
    {s e : String} {q : ℤ} {price : ℚ} :
    ∀ {pf : List PortfolioHolding},
      (∀ x ∈ pf, 0 < x.quantity) →
      (0 < q ∨ ∀ h0, get_portfolio_holding pf s e = some h0 →
        0 ≤ h0.quantity + q) →
      ∀ x ∈ update_portfolio instruments s e q price pf, 0 < x.quantity := by
  intro pf
  induction pf with
  | nil =>
    intro _ _ x hx
    rw [update_portfolio] at hx
    split at hx
    · rename_i hq
      simp only [List.mem_singleton] at hx
      subst hx
      simpa only [newHolding] using hq
    · simp at hx
  | cons hd rest ih =>
    intro hall hq x hx
    by_cases hm : (hd.symbol == s && hd.exchange == e) = true
    · simp only [update_portfolio, hm, if_true] at hx
      cases hb : blendHolding instruments s e q price hd with
      | none =>
        rw [hb] at hx
        exact hall x (List.mem_cons_of_mem _ hx)
      | some h' =>
        rw [hb] at hx
        rcases List.mem_cons.mp hx with rfl | hx'
        · obtain ⟨hne, -, -, hqty, -⟩ := blendHolding_eq_some hb
          rw [hqty]
          rcases hq with hq | hq
          · exact add_pos (hall hd (List.mem_cons_self _ _)) hq
          · have h0 : 0 ≤ hd.quantity + q := hq hd
              (by simp [get_portfolio_holding, List.find?, hm])
            exact lt_of_le_of_ne h0 (Ne.symm hne)
        · exact hall x (List.mem_cons_of_mem _ hx')
    · rw [Bool.not_eq_true] at hm
      simp only [update_portfolio, hm, Bool.false_eq_true, if_false] at hx
      rcases List.mem_cons.mp hx with rfl | hx'
      · exact hall x (List.mem_cons_self _ _)
      · refine ih (fun y hy => hall y (List.mem_cons_of_mem _ hy)) ?_ x hx'
        rcases hq with hq | hq
        · exact Or.inl hq
        · refine Or.inr fun h0 hf => hq h0 ?_
          simp [get_portfolio_holding, List.find?, hm]
          exact hf

theorem get_order_set_order (o : Order) :
    ∀ os : List Order, get_order (set_order os o) o.orderId = some o := by
  intro os
  induction os with
  | nil => simp [set_order, get_order, List.find?]
  | cons hd rest ih =>
    by_cases hm : (hd.orderId == o.orderId) = true
    · simp only [set_order, hm, if_true]
      simp [get_order, List.find?]
    · rw [Bool.not_eq_true] at hm
      simp only [set_order, hm, Bool.false_eq_true, if_false]
      simp only [get_order, List.find?, hm]
      exact ih

theorem simulate_order_execution_fields (eps : ℚ) (now : ℕ) (o : Order)
    (i : Instrument) :
    (simulate_order_execution eps now o i).orderId = o.orderId ∧
    (simulate_order_execution eps now o i).symbol = o.symbol ∧
    (simulate_order_execution eps now o i).exchange = o.exchange ∧
    (simulate_order_execution eps now o i).orderType = o.orderType ∧
    (simulate_order_execution eps now o i).orderStyle = o.orderStyle ∧
    (simulate_order_execution eps now o i).quantity = o.quantity ∧
    (simulate_order_execution eps now o i).price = o.price ∧
    (simulate_order_execution eps now o i).createdAt = o.createdAt := by
  unfold simulate_order_execution
  rcases o with ⟨oid, s, e, ot, os, qn, pr, st, ca, ea, ep⟩
  cases os <;> cases ot <;> cases pr <;> dsimp only <;> (try split) <;> simp

theorem simulate_order_execution_outcomes (eps : ℚ) (now : ℕ) (o : Order)
    (i : Instrument) (hA : o.executedAt = none) (hE : o.executedPrice = none) :
    ((simulate_order_execution eps now o i).status = OrderStatus.EXECUTED ∧
      (simulate_order_execution eps now o i).executedAt = some now ∧
      ∃ p, (simulate_order_execution eps now o i).executedPrice = some p) ∨
    ((simulate_order_execution eps now o i).status = OrderStatus.PLACED ∧
      (simulate_order_execution eps now o i).executedAt = none ∧
      (simulate_order_execution eps now o i).executedPrice = none) := by
  unfold simulate_order_execution
  rcases o with ⟨oid, s, e, ot, os, qn, pr, st, ca, ea, ep⟩
  simp only at hA hE
  subst hA hE
  cases os <;> cases ot <;> cases pr <;> dsimp only <;> (try split) <;>
    first
      | (left; simp; done)
      | (right; simp; done)

theorem filter_orderedInsert (k : ℕ) (t : Trade) :
    ∀ l : List Trade,
      (List.orderedInsert laterFirst t l).filter
          (fun x => x.executedAt == k) =
        if t.executedAt = k then
          t :: l.filter (fun x => x.executedAt == k)
        else l.filter (fun x => x.executedAt == k) := by
  intro l
  induction l with
  | nil =>
    rw [List.orderedInsert]
    by_cases hk : t.executedAt = k <;> simp [hk]
  | cons b bs ih =>
    rw [List.orderedInsert]
    by_cases hr : laterFirst t b
    · rw [if_pos hr]
      by_cases hk : t.executedAt = k <;> simp [List.filter_cons, hk]
    · rw [if_neg hr]
      have hlt : t.executedAt < b.executedAt := by
        unfold laterFirst at hr
        omega
      by_cases hbk : b.executedAt = k
      · have hk : ¬t.executedAt = k := by omega
        simp [List.filter_cons, hbk, hk, ih]
      · simp [List.filter_cons, hbk, ih]

theorem filter_insertionSort (k : ℕ) :
    ∀ l : List Trade,
      (List.insertionSort laterFirst l).filter (fun x => x.executedAt == k) =
        l.filter (fun x => x.executedAt == k) := by
  intro l
  induction l with
  | nil => rfl
  | cons b bs ih =>
    rw [List.insertionSort, filter_orderedInsert]
    by_cases hk : b.executedAt = k <;> simp [List.filter_cons, hk, ih]

/-- C4 counterexample: applying a fill of signed quantity -2 at price 10 to
an existing holding with quantity 1 and average cost 10 gives the nonzero new
quantity -1, yet the ledger stores average price 0, not the value 10 that
the blended weighted-average formula yields; so the formula is not applied
for every nonzero new quantity. -/
theorem C4_blended_average_cex :
    get_portfolio_holding (update_portfolio [] "RELIANCE" "NSE" (-2) 10
        [{ symbol := "RELIANCE", exchange := "NSE", quantity := 1,
           averagePrice := 10, currentValue := 10 }]) "RELIANCE" "NSE" =
      some { symbol := "RELIANCE", exchange := "NSE", quantity := -1,
             averagePrice := 0, currentValue := -10 } ∧
    ((1 : ℤ) + -2 ≠ 0) ∧
    (((1 : ℚ) * 10 + (-2 : ℚ) * 10) / (((1 : ℤ) + -2 : ℤ) : ℚ) = 10) ∧
    (0 : ℚ) ≠ 10 := by
  refine ⟨?_, by norm_num, by norm_num, by norm_num⟩
  simp [update_portfolio, blendHolding, get_instrument, get_portfolio_holding,
    List.find?]

/-- C4 (amended): for every fill applied to an existing holding whose new
quantity (old quantity plus signed quantity) is strictly positive, the new
weighted-average cost equals (old quantity times old average cost plus signed
quantity times fill price) divided by the new quantity, and this blended
formula is applied uniformly for increases and for partial decreases (the
sign of the fill quantity is unconstrained); for strictly negative new
totals the code stores average price 0 instead. -/
theorem C4_blended_average_amended (instruments : List Instrument) (s e : String)
    (q : ℤ) (price : ℚ) (pf : List PortfolioHolding) (h : PortfolioHolding)
    (hfind : get_portfolio_holding pf s e = some h)
    (hpos : 0 < h.quantity + q) :
    (get_portfolio_holding (update_portfolio instruments s e q price pf)
        s e).map (fun x => (x.quantity, x.averagePrice)) =
      some (h.quantity + q,
        ((h.quantity : ℚ) * h.averagePrice + (q : ℚ) * price) /
          ((h.quantity + q : ℤ) : ℚ)) := by
  cases hb : blendHolding instruments s e q price h with
  | none => exact absurd (blendHolding_eq_none.mp hb) (by omega)
  | some h' =>
    rw [get_portfolio_holding_update_found hfind hb]
    obtain ⟨-, -, -, hqty, havg⟩ := blendHolding_eq_some hb
    simp [hqty, havg, hpos]

/-- C4 witness: buying 5 at 110 on top of 10 held at average 100 yields
quantity 15 at the blended average 310/3. -/
theorem C4_blended_average_witness :
    (get_portfolio_holding (update_portfolio [] "X" "NSE" 5 110
        [{ symbol := "X", exchange := "NSE", quantity := 10,
           averagePrice := 100, currentValue := 1000 }]) "X" "NSE").map
        (fun x => (x.quantity, x.averagePrice)) =
      some (15, 310 / 3) := by
  have h := C4_blended_average_amended [] "X" "NSE" 5 110
    [{ symbol := "X", exchange := "NSE", quantity := 10,
       averagePrice := 100, currentValue := 1000 }]
    { symbol := "X", exchange := "NSE", quantity := 10,
      averagePrice := 100, currentValue := 1000 }
    (by simp [get_portfolio_holding, List.find?]) (by norm_num)
  rw [h]
  norm_num

/-- C5: no holding with quantity 0 ever exists in the Portfolio Ledger:
applying any fill preserves the invariant that every stored quantity is
nonzero, and a fill that brings an existing holding (under the dict
representation invariant of pairwise distinct keys) to total quantity exactly
zero, in particular selling exactly the held quantity, deletes that entry
from the ledger entirely instead of retaining a zero row. -/
theorem C5_no_zero_holding :
    (∀ (instruments : List Instrument) (s e : String) (q : ℤ) (price : ℚ)
      (pf : List PortfolioHolding), (∀ x ∈ pf, x.quantity ≠ 0) →
      ∀ x ∈ update_portfolio instruments s e q price pf, x.quantity ≠ 0) ∧
    (∀ (instruments : List Instrument) (s e : String) (price : ℚ)
      (pf : List PortfolioHolding) (h : PortfolioHolding), NoDupKeys pf →
      get_portfolio_holding pf s e = some h →
      get_portfolio_holding
        (update_portfolio instruments s e (-h.quantity) price pf) s e =
        none) := by
  constructor
  · intro instruments s e q price pf hall x hx
    exact update_portfolio_nonzero hall x hx
  · intro instruments s e price pf h hnd hfind
    exact get_portfolio_holding_update_deleted hnd hfind
      (blendHolding_eq_none.mpr (by omega))

/-- C5 witness: buying 3 on top of 2 held leaves a nonzero quantity, and
selling exactly the 2 held removes the instrument from the ledger. -/
theorem C5_no_zero_holding_witness :
    ({ symbol := "A", exchange := "N", quantity := 5,
       averagePrice := 31 / 5, currentValue := 35 } :
        PortfolioHolding).quantity ≠ 0 ∧
    get_portfolio_holding (update_portfolio [] "A" "N" (-2) 7
        [{ symbol := "A", exchange := "N", quantity := 2,
           averagePrice := 5, currentValue := 10 }]) "A" "N" = none := by
  constructor
  · refine C5_no_zero_holding.1 [] "A" "N" 3 7
      [{ symbol := "A", exchange := "N", quantity := 2,
         averagePrice := 5, currentValue := 10 }]
      (by intro x hx; simp at hx; subst hx; norm_num) _ ?_
    simp [update_portfolio, blendHolding, get_instrument, List.find?]
    norm_num
  · have h := C5_no_zero_holding.2 [] "A" "N" 7
      [{ symbol := "A", exchange := "N", quantity := 2,
         averagePrice := 5, currentValue := 10 }]
      { symbol := "A", exchange := "N", quantity := 2,
        averagePrice := 5, currentValue := 10 }
      (by simp [NoDupKeys]) (by simp [get_portfolio_holding, List.find?])
    simpa using h

/-- C6: a fill on a (symbol, exchange) pair with no existing holding
creates, for a strictly positive signed quantity, a new holding with quantity
equal to the signed quantity and average cost equal to the fill price, and
creates nothing (the ledger is unchanged) for a non-positive signed
quantity. -/
theorem C6_new_holding (instruments : List Instrument) (s e : String) (q : ℤ)
    (price : ℚ) (pf : List PortfolioHolding)
    (hnone : get_portfolio_holding pf s e = none) :
    (0 < q →
      update_portfolio instruments s e q price pf =
        pf ++ [newHolding instruments s e q price] ∧
      (newHolding instruments s e q price).quantity = q ∧
      (newHolding instruments s e q price).averagePrice = price) ∧
    (q ≤ 0 → update_portfolio instruments s e q price pf = pf) := by
  rw [update_portfolio_not_found hnone]
  constructor
  · intro hq
    rw [if_pos hq]
    exact ⟨rfl, by simp [newHolding], by simp [newHolding]⟩
  · intro hq
    rw [if_neg (by omega)]

/-- C6 witness: a first fill of 4 at price 9 creates the holding with
quantity 4, average price 9 and market value 36. -/
theorem C6_new_holding_witness :
    update_portfolio [] "B" "N" 4 9 [] =
      [{ symbol := "B", exchange := "N", quantity := 4, averagePrice := 9,
         currentValue := 36 }] := by
  have h := ((C6_new_holding [] "B" "N" 4 9 []
    (by simp [get_portfolio_holding])).1 (by norm_num)).1
  rw [h]
  simp [newHolding, get_instrument]
  norm_num

/-- C7: listing the Trade Ledger returns a permutation of the inserted
trades (so listing never edits or deletes a trade), sorted by execution
timestamp descending, and trades with equal execution timestamps appear in
their insertion order: filtering the listing by any fixed timestamp returns
exactly the trades of that timestamp in insertion order. -/
theorem C7_trade_listing (ts : List Trade) :
    (get_all_trades ts).Perm ts ∧
    (get_all_trades ts).Sorted laterFirst ∧
    ∀ k : ℕ, (get_all_trades ts).filter (fun x => x.executedAt == k) =
      ts.filter (fun x => x.executedAt == k) :=
  ⟨List.perm_insertionSort laterFirst ts,
   List.sorted_insertionSort laterFirst ts,
   fun k => filter_insertionSort k ts⟩

theorem create_order_ok_cases (eps : ℚ) (oid tid : String) (now : ℕ)
    (req : CreateOrderRequest) (db db' : DB) (o : Order)
    (h : create_order eps oid tid now req db = (db', Except.ok o)) :
    ∃ i, get_instrument db.instruments req.symbol req.exchange = some i ∧
      o = simulate_order_execution eps now (placed_order oid now req) i ∧
      db'.orders = set_order (set_order (set_order db.orders
        (initial_order oid now req)) (placed_order oid now req)) o ∧
      (db'.portfolio = db.portfolio ∨ ∃ ep, o.executedPrice = some ep ∧
        db'.portfolio = update_portfolio db.instruments req.symbol
          req.exchange
          (if req.orderType = OrderType.BUY then req.quantity
            else -req.quantity) ep db.portfolio) ∧
      ¬(req.orderType = OrderType.SELL ∧
        available_quantity db.portfolio req.symbol req.exchange <
          req.quantity) := by
  unfold create_order at h
  cases hI : get_instrument db.instruments req.symbol req.exchange with
  | none => rw [hI] at h; exact absurd h (by simp)
  | some i =>
    rw [hI] at h
    dsimp only at h
    by_cases hs : req.orderType = OrderType.SELL ∧
        available_quantity db.portfolio req.symbol req.exchange < req.quantity
    · rw [if_pos hs] at h
      exact absurd h (by simp)
    · rw [if_neg hs] at h
      refine ⟨i, rfl, ?_⟩
      obtain ⟨-, hsym, hexc, htyp, -, hqty, -, -⟩ :=
        simulate_order_execution_fields eps now (placed_order oid now req) i
      cases hEP : (simulate_order_execution eps now (placed_order oid now req)
          i).executedPrice with
      | none =>
        rw [hEP] at h
        dsimp only at h
        rw [Prod.mk.injEq, Except.ok.injEq] at h
        obtain ⟨hdb, ho⟩ := h
        subst ho
        subst hdb
        exact ⟨rfl, rfl, Or.inl rfl, hs⟩
      | some ep =>
        rw [hEP] at h
        dsimp only at h
        by_cases hex : (simulate_order_execution eps now
            (placed_order oid now req) i).status = OrderStatus.EXECUTED ∧
            ep ≠ 0
        · rw [if_pos hex] at h
          rw [Prod.mk.injEq, Except.ok.injEq] at h
          obtain ⟨hdb, ho⟩ := h
          subst ho
          subst hdb
          refine ⟨rfl, rfl, Or.inr ⟨ep, hEP, ?_⟩, hs⟩
          dsimp only
          rw [hsym, hexc, htyp, hqty]
          have hpo : (placed_order oid now req).symbol = req.symbol := rfl
          have hpe : (placed_order oid now req).exchange = req.exchange := rfl
          have hpt : (placed_order oid now req).orderType = req.orderType :=
            rfl
          have hpq : (placed_order oid now req).quantity = req.quantity := rfl
          rw [hpo, hpe, hpt, hpq]
        · rw [if_neg hex] at h
          rw [Prod.mk.injEq, Except.ok.injEq] at h
          obtain ⟨hdb, ho⟩ := h
          subst ho
          subst hdb
          exact ⟨rfl, rfl, Or.inl rfl, hs⟩

/-- C8: every order submission that passes validation (returns an order
rather than an error) ends the request cycle with the returned order in
status PLACED or EXECUTED, never NEW or CANCELLED; the execution timestamp
and the execution price are present if and only if the status is EXECUTED;
and the stored order under its id equals the returned order. -/
theorem C8_terminal_status (eps : ℚ) (oid tid : String) (now : ℕ)
    (req : CreateOrderRequest) (db db' : DB) (o : Order)
    (h : create_order eps oid tid now req db = (db', Except.ok o)) :
    (o.status = OrderStatus.PLACED ∨ o.status = OrderStatus.EXECUTED) ∧
    ((∃ t, o.executedAt = some t) ↔ o.status = OrderStatus.EXECUTED) ∧
    ((∃ p, o.executedPrice = some p) ↔ o.status = OrderStatus.EXECUTED) ∧
    get_order db'.orders o.orderId = some o := by
  obtain ⟨i, -, ho, horders, -, -⟩ :=
    create_order_ok_cases eps oid tid now req db db' o h
  subst ho
  rcases simulate_order_execution_outcomes eps now (placed_order oid now req)
      i rfl rfl with ⟨hst, hat, p, hp⟩ | ⟨hst, hat, hp⟩
  · refine ⟨Or.inr hst, ?_, ?_, ?_⟩
    · simp [hat, hst]
    · simp [hp, hst]
    · rw [horders]
      exact get_order_set_order _ _
  · refine ⟨Or.inl hst, ?_, ?_, ?_⟩
    · simp [hat, hst]
    · simp [hp, hst]
    · rw [horders]
      exact get_order_set_order _ _

theorem refreshHolding_fields (instruments : List Instrument)
    (h : PortfolioHolding) :
    (refreshHolding instruments h).symbol = h.symbol ∧
    (refreshHolding instruments h).exchange = h.exchange ∧
    (refreshHolding instruments h).quantity = h.quantity ∧
    (refreshHolding instruments h).averagePrice = h.averagePrice := by
  unfold refreshHolding
  split <;> simp

theorem refreshHolding_idem (instruments : List Instrument)
    (h : PortfolioHolding) :
    refreshHolding instruments (refreshHolding instruments h) =
      refreshHolding instruments h := by
  cases hI : get_instrument instruments h.symbol h.exchange with
  | none => simp [refreshHolding, hI]
  | some i => simp [refreshHolding, hI]

/-- C9: reading the portfolio listing twice with no intervening order
submissions yields identical quantities and identical average costs in both
reads (whatever the catalog does in between); every listed market value is
recomputed on read as quantity times the current catalog price of the
instrument; and with an unchanged catalog the second read equals the first
entirely, so the market value can differ between the reads only if the
reference price changed. -/
theorem C9_portfolio_read_stable (cat cat' : List Instrument) (pf : List PortfolioHolding) :
    ((get_all_portfolio_holdings cat pf).map
        (fun h => (h.quantity, h.averagePrice)) =
      (get_all_portfolio_holdings cat'
          (get_all_portfolio_holdings cat pf)).map
        (fun h => (h.quantity, h.averagePrice))) ∧
    (∀ h ∈ get_all_portfolio_holdings cat'
        (get_all_portfolio_holdings cat pf),
      ∀ i, get_instrument cat' h.symbol h.exchange = some i →
        h.currentValue = (h.quantity : ℚ) * i.lastTradedPrice) ∧
    (cat' = cat →
      get_all_portfolio_holdings cat' (get_all_portfolio_holdings cat pf) =
        get_all_portfolio_holdings cat pf) := by
  refine ⟨?_, ?_, ?_⟩
  · unfold get_all_portfolio_holdings
    simp only [List.map_map]
    refine (List.map_congr_left ?_).symm
    intro a _
    obtain ⟨-, -, hq, hp⟩ := refreshHolding_fields cat' (refreshHolding cat a)
    simp [Function.comp, hq, hp]
  · intro h hmem i hfound
    obtain ⟨x, -, rfl⟩ := List.mem_map.mp hmem
    obtain ⟨hs, he, -, -⟩ := refreshHolding_fields cat' x
    rw [hs, he] at hfound
    simp [refreshHolding, hfound]
  · intro hcat
    subst hcat
    unfold get_all_portfolio_holdings
    rw [List.map_map]
    refine List.map_congr_left ?_
    intro a _
    exact refreshHolding_idem cat' a

theorem create_order_error_unchanged (eps : ℚ) (oid tid : String) (now : ℕ)
    (req : CreateOrderRequest) (db db' : DB) (err : TradingError)
    (h : create_order eps oid tid now req db = (db', Except.error err)) :
    db' = db := by
  unfold create_order at h
  cases hI : get_instrument db.instruments req.symbol req.exchange with
  | none =>
    rw [hI] at h
    rw [Prod.mk.injEq] at h
    exact h.1.symm
  | some i =>
    rw [hI] at h
    dsimp only at h
    by_cases hs : req.orderType = OrderType.SELL ∧
        available_quantity db.portfolio req.symbol req.exchange < req.quantity
    · rw [if_pos hs] at h
      rw [Prod.mk.injEq] at h
      exact h.1.symm
    · rw [if_neg hs] at h
      cases hEP : (simulate_order_execution eps now (placed_order oid now req)
          i).executedPrice with
      | none =>
        rw [hEP] at h
        dsimp only at h
        rw [Prod.mk.injEq] at h
        exact absurd h.2 (by simp)
      | some ep =>
        rw [hEP] at h
        dsimp only at h
        split at h <;> (rw [Prod.mk.injEq] at h; exact absurd h.2 (by simp))

/-- C10: when a fill applied to an existing holding makes the total
quantity strictly negative, the holding is kept with its average price set
to 0 instead of the blended formula; and this branch is unreachable through
the public order-submission flow, because a submission with positive
requested quantity (SELL orders being rejected unless holdings cover them)
maps a ledger whose quantities are all strictly positive to a ledger whose
quantities are all strictly positive. -/
theorem C10_negative_branch_unreachable :
    (∀ (instruments : List Instrument) (s e : String) (q : ℤ) (price : ℚ)
      (pf : List PortfolioHolding) (h : PortfolioHolding),
      get_portfolio_holding pf s e = some h → h.quantity + q < 0 →
      (get_portfolio_holding (update_portfolio instruments s e q price pf)
          s e).map (fun x => (x.quantity, x.averagePrice)) =
        some (h.quantity + q, 0)) ∧
    (∀ (eps : ℚ) (oid tid : String) (now : ℕ) (req : CreateOrderRequest)
      (db : DB), 0 < req.quantity → (∀ x ∈ db.portfolio, 0 < x.quantity) →
      ∀ x ∈ (create_order eps oid tid now req db).1.portfolio,
        0 < x.quantity) := by
  constructor
  · intro instruments s e q price pf h hfind hneg
    cases hb : blendHolding instruments s e q price h with
    | none => exact absurd (blendHolding_eq_none.mp hb) (by omega)
    | some h' =>
      rw [get_portfolio_holding_update_found hfind hb]
      obtain ⟨-, -, -, hqty, havg⟩ := blendHolding_eq_some hb
      rw [if_neg (by omega)] at havg
      simp [hqty, havg]
  · intro eps oid tid now req db hq hall x hx
    rcases hres : create_order eps oid tid now req db with ⟨db', r⟩
    rw [hres] at hx
    dsimp only at hx
    cases r with
    | error err =>
      rw [create_order_error_unchanged eps oid tid now req db db' err hres]
        at hx
      exact hall x hx
    | ok o =>
      obtain ⟨i, -, -, -, hpf, hnotsell⟩ :=
        create_order_ok_cases eps oid tid now req db db' o hres
      rcases hpf with hpf | ⟨ep, -, hpf⟩
      · rw [hpf] at hx
        exact hall x hx
      · rw [hpf] at hx
        refine update_portfolio_pos hall ?_ x hx
        by_cases hbuy : req.orderType = OrderType.BUY
        · rw [if_pos hbuy]
          exact Or.inl hq
        · have hsell : req.orderType = OrderType.SELL := by
            cases ht : req.orderType
            · exact absurd ht hbuy
            · rfl
          rw [if_neg hbuy]
          refine Or.inr fun h0 hf => ?_
          have hav : ¬ available_quantity db.portfolio req.symbol
              req.exchange < req.quantity :=
            fun hlt => hnotsell ⟨hsell, hlt⟩
          unfold available_quantity at hav
          rw [hf] at hav
          dsimp only at hav
          omega

theorem c8run :
    create_order 0 "ORD00000005" "TRD00000003" 5 marketBuyRequest initialDB =
      (c8db, Except.ok c8order) := by
  unfold create_order
  rw [show get_instrument initialDB.instruments marketBuyRequest.symbol
      marketBuyRequest.exchange = some relianceInstrument by
    simp [get_instrument, initialDB, sample_instruments, marketBuyRequest,
      relianceInstrument]]
  dsimp only
  rw [if_neg (by simp [marketBuyRequest])]
  rw [show simulate_order_execution 0 5
      (placed_order "ORD00000005" 5 marketBuyRequest) relianceInstrument =
      c8order by
    simp [simulate_order_execution, placed_order, initial_order,
      marketBuyRequest, relianceInstrument, c8order]
    norm_num [round2, roundHalfEven]]
  rw [show c8order.executedPrice = some 2450.5 from rfl]
  dsimp only
  rw [if_pos (show c8order.status = OrderStatus.EXECUTED ∧ (2450.5 : ℚ) ≠ 0
    from ⟨rfl, by norm_num⟩)]
  refine Prod.ext ?_ rfl
  dsimp only
  simp only [c8db, initialDB, DB.mk.injEq]
  simp [set_order, initial_order, placed_order, c8order, c8trade,
    update_portfolio]

/-- C8 witness: the MARKET BUY scenario on the fresh database returns an
EXECUTED order with both execution fields set, stored under its id. -/
theorem C8_terminal_status_witness :
    (c8order.status = OrderStatus.PLACED ∨
      c8order.status = OrderStatus.EXECUTED) ∧
    ((∃ t, c8order.executedAt = some t) ↔
      c8order.status = OrderStatus.EXECUTED) ∧
    ((∃ p, c8order.executedPrice = some p) ↔
      c8order.status = OrderStatus.EXECUTED) ∧
    get_order c8db.orders c8order.orderId = some c8order :=
  C8_terminal_status 0 "ORD00000005" "TRD00000003" 5 marketBuyRequest initialDB c8db
    c8order c8run

/-- C9 witness: re-reading a RELIANCE position under the sample catalog
reproduces the same listing, whose market value is 10 times the reference
price 2450.50. -/
theorem C9_portfolio_read_stable_witness :
    get_all_portfolio_holdings sample_instruments
        (get_all_portfolio_holdings sample_instruments c9pf) =
      get_all_portfolio_holdings sample_instruments c9pf ∧
    c9holding.currentValue =
      ((c9holding.quantity : ℤ) : ℚ) * relianceInstrument.lastTradedPrice := by
  constructor
  · exact (C9_portfolio_read_stable sample_instruments sample_instruments c9pf).2.2 rfl
  · refine (C9_portfolio_read_stable sample_instruments sample_instruments c9pf).2.1
      _ ?_ relianceInstrument ?_
    · show _ ∈ get_all_portfolio_holdings sample_instruments
        (get_all_portfolio_holdings sample_instruments c9pf)
      simp [get_all_portfolio_holdings, c9pf, refreshHolding, get_instrument,
        sample_instruments, List.find?, c9holding]
      norm_num
    · simp [get_instrument, sample_instruments, relianceInstrument,
        List.find?, c9holding]

/-- C10 witness: a fill of -5 on 3 held stores quantity -2 with average
price 0, and the MARKET BUY scenario keeps every stored quantity positive. -/
theorem C10_negative_branch_unreachable_witness :
    (get_portfolio_holding (update_portfolio [] "C" "N" (-5) 4
        [{ symbol := "C", exchange := "N", quantity := 3, averagePrice := 8,
           currentValue := 24 }]) "C" "N").map
        (fun x => (x.quantity, x.averagePrice)) = some (-2, 0) ∧
    0 < (newHolding sample_instruments "RELIANCE" "NSE" 10
        2450.5).quantity := by
  constructor
  · have h := C10_negative_branch_unreachable.1 [] "C" "N" (-5) 4
      [{ symbol := "C", exchange := "N", quantity := 3, averagePrice := 8,
         currentValue := 24 }]
      { symbol := "C", exchange := "N", quantity := 3, averagePrice := 8,
        currentValue := 24 }
      (by simp [get_portfolio_holding, List.find?]) (by norm_num)
    simpa using h
  · refine C10_negative_branch_unreachable.2 0 "ORD00000005" "TRD00000003" 5 marketBuyRequest
      initialDB (by norm_num [marketBuyRequest]) (by simp [initialDB]) _ ?_
    rw [c8run]
    simp [c8db]



end TradingAPI
